import Mathlib

/-!
Shallow embedding of the ASGI tracing utilities of
`opentelemetry-util-http` (`opentelemetry/util/http/asgi/__init__.py`) and of
the exclusion filter of `opentelemetry-instrumentation-starlette`
(`opentelemetry/instrumentation/starlette/__init__.py`).

Conventions of the embedding:
* Python byte strings that the code only ever decodes with UTF-8 are
  modelled directly as `String` (decoding is the identity on the modelled
  fragment).
* An absent dictionary key is modelled as `Option.none`; fallible Python
  code is modelled with `Except PyErr`.
* Functions keep the names of the Python functions they embed.
-/

namespace Asgi

/-- Python scalar values as they occur in the attribute dictionaries of the
embedded code: strings, integers, and `None`. -/
inductive PyVal where
  | vNone
  | vStr (s : String)
  | vInt (n : Int)
deriving DecidableEq, Repr

/-- Python exceptions raised (or propagated) by the embedded code. -/
inductive PyErr where
  | typeError (msg : String)
  | valueError (msg : String)
  | reError (msg : String)
  | userError (msg : String)
deriving DecidableEq, Repr

/-- The ASGI scope dictionary: the protocol type (always present) plus the
optional request fields read by the embedded code.  The `headers` field is
`none` when the `"headers"` key is absent (or `None`), and otherwise holds the
decoded `(name, value)` pairs. -/
structure Scope where
  type_ : String
  scheme : Option String := none
  http_version : Option String := none
  method : Option String := none
  path : Option String := none
  root_path : Option String := none
  query_string : Option String := none
  server : Option (String × Int) := none
  client : Option (String × Int) := none
  headers : Option (List (String × String)) := none
deriving DecidableEq, Repr

/-- Message used by Python when iterating over `None` (the failure mode of
`CarrierGetter.get` on a scope without a `"headers"` key). -/
def noneIterMsg : String := "cannot unpack non-iterable NoneType object"

/-- Embeds `CarrierGetter.get`: collects the decoded values of every header
pair whose (exactly matching) name equals `key`; returns `none` instead of an
empty list; iterating `carrier.get("headers")` raises `TypeError` when the
`"headers"` key is absent. -/
def CarrierGetter.get (carrier : Scope) (key : String) :
    Except PyErr (Option (List String)) :=
  match carrier.headers with
  | none => .error (.typeError noneIterMsg)
  | some hs =>
      let decoded := hs.filterMap fun kv => if kv.1 = key then some kv.2 else none
      if decoded.isEmpty then .ok none else .ok (some decoded)

/-- Embeds `get_host_port_url_tuple`: `(host[:port], port, full url)` with the
documented defaults (`server` falsy ⇒ `("0.0.0.0", 80)`, missing scheme ⇒
`"http"`, missing paths ⇒ `""`); the port suffix is dropped exactly when the
port equals `80`, whatever the scheme. -/
def get_host_port_url_tuple (scope : Scope) : String × Int × String :=
  let server := scope.server.getD ("0.0.0.0", 80)
  let port := server.2
  let server_host := server.1 ++ (if port ≠ 80 then ":" ++ toString port else "")
  let full_path := scope.root_path.getD "" ++ scope.path.getD ""
  let http_url := scope.scheme.getD "http" ++ "://" ++ server_host ++ full_path
  (server_host, port, http_url)

/-- Value of a hexadecimal digit (0 for non-hex characters). -/
def hexVal (c : Char) : Nat :=
  if c.isDigit then c.toNat - 48
  else if 97 ≤ c.toNat ∧ c.toNat ≤ 102 then c.toNat - 87
  else if 65 ≤ c.toNat ∧ c.toNat ≤ 70 then c.toNat - 55
  else 0

/-- Whether a character is a hexadecimal digit. -/
def isHexDigitM (c : Char) : Bool :=
  c.isDigit || (97 ≤ c.toNat && c.toNat ≤ 102) || (65 ≤ c.toNat && c.toNat ≤ 70)

/-- Modelled from the spec: percent-decoding of the query string
(`urllib.parse.unquote`, standard-library code that is not part of this
repository), restricted to the single-byte character fragment: each `%xx`
pair of hex digits becomes the character with that code, anything else is
copied through. -/
def unquoteAux : List Char → List Char
  | [] => []
  | '%' :: a :: b :: rest =>
      if isHexDigitM a ∧ isHexDigitM b then
        Char.ofNat (16 * hexVal a + hexVal b) :: unquoteAux rest
      else '%' :: unquoteAux (a :: b :: rest)
  | c :: rest => c :: unquoteAux rest

/-- String wrapper of `unquoteAux`. -/
def unquote (s : String) : String := ⟨unquoteAux s.data⟩

/-- Lifts an optional string to the Python value stored in the attribute
dictionary (`None` when the scope key is absent). -/
def optPyStr : Option String → PyVal
  | some s => .vStr s
  | none => .vNone

/-- Embeds `",".join` on decoded header values. -/
def joinComma : List String → String
  | [] => ""
  | [s] => s
  | s :: rest => s ++ "," ++ joinComma rest

/-- Embeds `collect_request_attributes`: builds the attribute dictionary in
the source's insertion order (conditional insertions are modelled as
appended one-element lists so that the final dictionary is the concatenation)
and removes entries whose value is `None`.  The two header lookups go through
`CarrierGetter.get` and propagate its `TypeError` when the scope has no
`"headers"` key. -/
def collect_request_attributes (scope : Scope) :
    Except PyErr (List (String × PyVal)) :=
  let t := get_host_port_url_tuple scope
  let server_host := t.1
  let port := t.2.1
  let http_url0 := t.2.2
  let http_url :=
    match scope.query_string with
    | some qs => if qs ≠ "" ∧ http_url0 ≠ "" then http_url0 ++ "?" ++ unquote qs else http_url0
    | none => http_url0
  match CarrierGetter.get scope "host" with
  | .error e => .error e
  | .ok http_host_value_list =>
    match CarrierGetter.get scope "user-agent" with
    | .error e => .error e
    | .ok http_user_agent =>
      let result : List (String × PyVal) :=
        ("http.scheme", optPyStr scope.scheme) ::
        ("http.host", .vStr server_host) ::
        ("net.host.port", .vInt port) ::
        ("http.flavor", optPyStr scope.http_version) ::
        ("http.target", optPyStr scope.path) ::
        ("http.url", .vStr http_url) ::
        ((match scope.method with
          | some m => if m ≠ "" then [("http.method", PyVal.vStr m)] else []
          | none => []) ++
         (match http_host_value_list with
          | some (v :: vs) => [("http.server_name", PyVal.vStr (joinComma (v :: vs)))]
          | _ => []) ++
         (match http_user_agent with
          | some (ua :: _) => [("http.user_agent", PyVal.vStr ua)]
          | _ => []) ++
         (match scope.client with
          | some c => [("net.peer.ip", PyVal.vStr c.1), ("net.peer.port", PyVal.vInt c.2)]
          | none => []))
      .ok (result.filter fun kv => kv.2 ≠ .vNone)

/-! Status mapper (`set_status_code`) and its span model. -/

/-- Trace status codes (`StatusCode` of the OpenTelemetry API). -/
inductive TraceStatusCode where
  | unset
  | ok
  | error
deriving DecidableEq, Repr

/-- A span status: a trace status code with an optional description
(`Status(code, description)`). -/
structure SpanStatus where
  code : TraceStatusCode
  description : Option String := none
deriving DecidableEq, Repr

/-- The observable state of one span handled by the embedded code: its name,
whether the tracer made it a recording span, its attribute dictionary and its
status. -/
structure SpanModel where
  name : String
  recording : Bool
  attrs : List (String × PyVal) := []
  status : SpanStatus := ⟨.unset, none⟩
deriving DecidableEq, Repr

/-- Dictionary assignment `d[k] = v`: overwrites the value of an existing key
in place, otherwise appends the new entry. -/
def setAttr (attrs : List (String × PyVal)) (k : String) (v : PyVal) :
    List (String × PyVal) :=
  if attrs.any (fun kv => kv.1 = k) then
    attrs.map fun kv => if kv.1 = k then (k, v) else kv
  else attrs ++ [(k, v)]

/-- Dictionary `d.update(u)`: assigns every entry of `u` into `d` in order. -/
def dictUpdate (d u : List (String × PyVal)) : List (String × PyVal) :=
  u.foldl (fun acc kv => setAttr acc kv.1 kv.2) d

/-- First value stored under a key, Python `d[k]` as a partial lookup. -/
def lookupAttr (attrs : List (String × PyVal)) (k : String) : Option PyVal :=
  (attrs.find? fun kv => kv.1 = k).map fun kv => kv.2

/-- Python `repr` of the modelled scalar values (strings are quoted with
single quotes, written here with their escape code). -/
def pyRepr : PyVal → String
  | .vNone => "None"
  | .vStr s => "\x27" ++ s ++ "\x27"
  | .vInt n => toString n

/-- Parses the decimal integer fragment accepted by Python `int(str)`:
surrounding whitespace, an optional sign, then at least one digit. -/
def digitsVal (cs : List Char) : Option Nat :=
  if cs.isEmpty then none
  else if cs.all Char.isDigit then
    some (cs.foldl (fun a c => 10 * a + (c.toNat - 48)) 0)
  else none

/-- Whitespace stripped by Python `int(str)`. -/
def isPySpace (c : Char) : Bool :=
  c = ' ' || c = '\t' || c = '\n' || c = '\r'

/-- Integer parsing for `int(str)` on the modelled decimal fragment. -/
def parseIntString (s : String) : Option Int :=
  let cs := s.data.dropWhile isPySpace
  let cs := (cs.reverse.dropWhile isPySpace).reverse
  match cs with
  | '+' :: rest => (digitsVal rest).map Int.ofNat
  | '-' :: rest => (digitsVal rest).map fun n => -(Int.ofNat n)
  | rest => (digitsVal rest).map Int.ofNat

/-- Message of the `TypeError` raised by `int(None)`. -/
def pyIntNoneMsg : String :=
  "int() argument must be a string, a bytes-like object or a number, not NoneType"

/-- Python `int(x)` on the modelled values: integers pass through, strings
parse as decimal numerals (otherwise `ValueError`), and `None` raises
`TypeError`. -/
def pyInt : PyVal → Except PyErr Int
  | .vInt n => .ok n
  | .vStr s =>
      match parseIntString s with
      | some n => .ok n
      | none => .error (.valueError
          ("invalid literal for int() with base 10: " ++ pyRepr (.vStr s)))
  | .vNone => .error (.typeError pyIntNoneMsg)

/-- Modelled from the spec: `http_status_to_status_code` lives in the shared
`opentelemetry-instrumentation` utilities package, which is not among the
sources verified here; the spec's protocol-status table maps 1xx–3xx to
unset/ok and everything else (4xx/5xx in particular) to error. -/
def http_status_to_status_code (status : Int) : TraceStatusCode :=
  if 100 ≤ status ∧ status ≤ 399 then .unset else .error

/-- Embeds `set_status_code`: a no-op on non-recording spans; otherwise
coerces the code with `int(...)`, catching only `ValueError` (which yields an
error status embedding `repr` of the offending value and leaves the
attributes untouched); on success it sets `http.status_code` and derives the
span status; any other exception of the coercion (`TypeError` for `None`)
propagates. -/
def set_status_code (span : SpanModel) (status_code : PyVal) :
    Except PyErr SpanModel :=
  if !span.recording then .ok span
  else
    match pyInt status_code with
    | .error (.valueError _) =>
        .ok { span with
          status := ⟨.error, some ("Non-integer HTTP status: " ++ pyRepr status_code)⟩ }
    | .error e => .error e
    | .ok n =>
        .ok { span with
          attrs := setAttr span.attrs "http.status_code" (.vInt n),
          status := ⟨http_status_to_status_code n, none⟩ }

/-- Embeds `get_default_span_details`: the name is
`scope.get("method") or scope.get("path")` (Python `or`: the method when it
is a non-empty string, otherwise the path as stored, possibly `None`), with
an empty additional-attribute dictionary. -/
def get_default_span_details (scope : Scope) :
    Option String × List (String × PyVal) :=
  let method_or_path :=
    match scope.method with
    | some m => if m ≠ "" then some m else scope.path
    | none => scope.path
  (method_or_path, [])

/-! Exclusion filter (`_ExcludeList` of the starlette instrumentation).

The host regular-expression engine is embedded on its literal fragment:
a pattern is a sequence of ordinary characters, the constructor's
`"|".join` introduces alternation, and `re.search` of the compiled
alternation finds a match anywhere in the url — i.e. some branch occurs as
a substring.  A pattern using any further regex syntax is outside the
fragment and is conservatively rejected at compile time, which realises the
fail-fast behaviour of `re.compile` on an invalid pattern such as `"("`. -/

/-- Characters that carry regex syntax and are therefore outside the
modelled literal fragment (`|` is excluded: the constructor itself uses it
as the alternation separator). -/
def isRegexMeta (c : Char) : Bool :=
  c = '(' || c = ')' || c = '[' || c = ']' || c = '*' || c = '+' ||
  c = '?' || c = '.' || c = '^' || c = '$' || c = '\\' ||
  c = '\x7b' || c = '\x7d'

/-- A branch of the alternation stays inside the literal fragment. -/
def patternValid (p : List Char) : Bool := p.all fun c => !isRegexMeta c

/-- Splits a pattern at the alternation bars. -/
def splitBar : List Char → List (List Char)
  | [] => [[]]
  | c :: rest =>
      if c = '|' then [] :: splitBar rest
      else
        match splitBar rest with
        | [] => [[c]]
        | h :: t => (c :: h) :: t

/-- Embeds `"|".join` on the underlying character lists. -/
def joinBar : List (List Char) → List Char
  | [] => []
  | [p] => p
  | p :: rest => p ++ '|' :: joinBar rest

/-- A compiled regular expression of the literal fragment: the list of
alternation branches. -/
structure CompiledRe where
  branches : List (List Char)
deriving DecidableEq, Repr

/-- Embeds `re.compile` on the literal fragment: the pattern splits into its
alternation branches; a branch using unsupported syntax raises `re.error`
at compile time. -/
def re_compile (pattern : String) : Except PyErr CompiledRe :=
  let branches := splitBar pattern.data
  if branches.all patternValid then .ok ⟨branches⟩
  else .error (.reError ("invalid pattern: " ++ pattern))

/-- Whether the needle starts at the head of the haystack. -/
def matchesAt : List Char → List Char → Bool
  | [], _ => true
  | _ :: _, [] => false
  | a :: as, b :: bs => a = b && matchesAt as bs

/-- Whether the needle occurs anywhere inside the haystack. -/
def isSubstring (needle hay : List Char) : Bool :=
  matchesAt needle hay ||
    match hay with
    | [] => false
    | _ :: t => isSubstring needle t

/-- Embeds `re.search` (truthiness of the returned match object): the
compiled alternation matches somewhere iff some branch is a substring. -/
def re_search (r : CompiledRe) (s : String) : Bool :=
  r.branches.any fun b => isSubstring b s.data

/-- Embeds `_ExcludeList`: the stored pattern list and the `_regex`
attribute, which exists (`some`) only when the constructor compiled it. -/
structure ExcludeList where
  excluded_urls : List String
  regex : Option CompiledRe
deriving DecidableEq, Repr

/-- Embeds `_ExcludeList.__init__`: stores the list and compiles
`"|".join(excluded_urls)` only when the list is truthy (non-empty); a
compile error propagates, so construction fails fast and the `_regex`
attribute of an empty filter is never created. -/
def mkExcludeList (excluded_urls : List String) : Except PyErr ExcludeList :=
  if excluded_urls.isEmpty then .ok ⟨excluded_urls, none⟩
  else
    match re_compile ⟨joinBar (excluded_urls.map String.data)⟩ with
    | .ok r => .ok ⟨excluded_urls, some r⟩
    | .error e => .error e

/-- Embeds `_ExcludeList.url_disabled`, i.e.
`bool(self._excluded_urls and search(self._regex, url))`: the Python `and`
short-circuits, so the `_regex` attribute is read only when the stored list
is truthy; reading it while absent would raise `AttributeError`. -/
def ExcludeList.url_disabled (e : ExcludeList) (url : String) :
    Except PyErr Bool :=
  if e.excluded_urls.isEmpty then .ok false
  else
    match e.regex with
    | none => .error (.typeError "AttributeError: _ExcludeList object has no attribute _regex")
    | some r => .ok (re_search r url)

/-! Span lifecycle manager (`OpenTelemetryMiddleware.__call__`). -/

/-- The ambient context threaded by attach/detach: the suppression flag plus
the remote parent extracted by the propagator.  Modelled from the spec:
`Context` (an API-package type, not among the sources verified here) is an
immutable bundle of the current span and ambient keys such as
`"suppress_instrumentation"`. -/
structure Ctx where
  suppress_instrumentation : Bool := false
  current_span_parent : Option String := none
deriving DecidableEq, Repr

/-- Modelled from the spec: `propagators.extract` (API-package code, not
among the sources verified here) reads the wire trace-context header from
the carrier and returns the ambient context enriched with the remote parent,
or the ambient context unchanged when the header is absent or malformed;
it never raises. -/
def propagators_extract (ambient : Ctx) (scope : Scope) : Ctx :=
  match scope.headers with
  | none => ambient
  | some hs =>
      match hs.filterMap (fun kv => if kv.1 = "traceparent" then some kv.2 else none) with
      | v :: _ => { ambient with current_span_parent := some v }
      | [] => ambient

/-- Observable actions of one middleware invocation, in order: context
attach/detach with their token, root-span open/close, and the downstream
application call (`wrapped = true` iff the instrumented receive/send pair
was passed instead of the original one). -/
inductive Event where
  | attach (token : Nat)
  | detach (token : Nat)
  | spanStart (name : String)
  | spanEnd (name : String)
  | appCall (wrapped : Bool)
deriving DecidableEq, Repr

/-- Behaviour of the downstream ASGI application for one invocation: it
either returns or raises. -/
inductive AppResult where
  | returns
  | raises (e : PyErr)
deriving DecidableEq, Repr

/-- Outcome of awaiting the downstream application. -/
def appOutcome : AppResult → Except PyErr Unit
  | .returns => .ok ()
  | .raises e => .error e

/-- Result of one middleware invocation: the event trace, the root spans
opened by the middleware (with their final attributes), the context value
passed to `context.attach` (when reached), and the overall outcome. -/
structure MWResult where
  events : List Event
  spans : List SpanModel
  attached : Option Ctx
  outcome : Except PyErr Unit

/-- The middleware object: its configured exclusion filter, span-details
callback (defaulting to `get_default_span_details`), and whether the tracer
hands it recording spans. -/
structure OpenTelemetryMiddleware where
  excluded_urls : Option ExcludeList := none
  span_details_callback : Scope → Except PyErr (Option String × List (String × PyVal)) :=
    fun s => .ok (get_default_span_details s)
  recording : Bool := true

/-- Embeds `OpenTelemetryMiddleware.__call__` as a function from the scope,
the ambient context and the downstream behaviour to the observable result.
Control flow follows the source line by line: non-http/websocket scopes and
excluded urls pass through with the original receive/send; otherwise the
extracted context is attached, then the span-details callback runs (outside
the `try`, so its exception propagates without a detach); inside
`try/finally` the root span opens (the name concatenation raises `TypeError`
when the callback produced `None`), attributes are collected and set when
the span is recording (a collection error closes the span and still reaches
the `finally`), the downstream runs with the wrapped primitives, and the
`finally` detaches the token. -/
def OpenTelemetryMiddleware.call (mw : OpenTelemetryMiddleware) (ctx : Ctx)
    (scope : Scope) (app : AppResult) : MWResult :=
  if scope.type_ ≠ "http" ∧ scope.type_ ≠ "websocket" then
    { events := [.appCall false], spans := [], attached := none,
      outcome := appOutcome app }
  else
    let url := (get_host_port_url_tuple scope).2.2
    let excludedCheck : Except PyErr Bool :=
      match mw.excluded_urls with
      | none => .ok false
      | some e => e.url_disabled url
    match excludedCheck with
    | .error err =>
        { events := [], spans := [], attached := none, outcome := .error err }
    | .ok true =>
        { events := [.appCall false], spans := [], attached := none,
          outcome := appOutcome app }
    | .ok false =>
      let attachedCtx := propagators_extract ctx scope
      let token := 0
      match mw.span_details_callback scope with
      | .error err =>
          { events := [.attach token], spans := [], attached := some attachedCtx,
            outcome := .error err }
      | .ok (span_name?, additional_attributes) =>
        match span_name? with
        | none =>
            { events := [.attach token, .detach token], spans := [],
              attached := some attachedCtx,
              outcome := .error (.typeError
                "unsupported operand type(s) for +: NoneType and str") }
        | some span_name =>
          let fullName := span_name ++ " asgi"
          let span0 : SpanModel :=
            { name := fullName, recording := mw.recording }
          if mw.recording then
            match collect_request_attributes scope with
            | .error err =>
                { events := [.attach token, .spanStart fullName,
                    .spanEnd fullName, .detach token],
                  spans := [span0], attached := some attachedCtx,
                  outcome := .error err }
            | .ok attributes =>
                let merged := dictUpdate attributes additional_attributes
                let span1 := { span0 with attrs := dictUpdate span0.attrs merged }
                { events := [.attach token, .spanStart fullName, .appCall true,
                    .spanEnd fullName, .detach token],
                  spans := [span1], attached := some attachedCtx,
                  outcome := appOutcome app }
          else
            { events := [.attach token, .spanStart fullName, .appCall true,
                .spanEnd fullName, .detach token],
              spans := [span0], attached := some attachedCtx,
              outcome := appOutcome app }

/-- The concrete scope of the spec's scenario A (its headers entry present
and empty, as the transport layer guarantees). -/
def scenarioA : Scope :=
  { type_ := "http", method := some "GET", path := some "/foobar",
    scheme := some "http", server := some ("0.0.0.0", 80),
    headers := some [] }

/-! Helper lemmas about the alternation split/join and the attribute
dictionaries. -/

theorem splitBar_ne_nil (xs : List Char) : splitBar xs ≠ [] := by
  cases xs with
  | nil => simp [splitBar]
  | cons c rest =>
      simp only [splitBar]
      split
      · simp
      · split <;> simp

theorem splitBar_no_bar (p : List Char) (h : '|' ∉ p) : splitBar p = [p] := by
  induction p with
  | nil => rfl
  | cons c rest ih =>
      have hc : c ≠ '|' := by rintro rfl; exact h (List.mem_cons_self _ _)
      have hrest : '|' ∉ rest := fun hm => h (List.mem_cons_of_mem _ hm)
      simp only [splitBar, if_neg hc, ih hrest]

theorem splitBar_cons_ne (c : Char) (rest h0 : List Char) (t0 : List (List Char))
    (hc : c ≠ '|') (h : splitBar rest = h0 :: t0) :
    splitBar (c :: rest) = (c :: h0) :: t0 := by
  simp [splitBar, if_neg hc, h]

theorem splitBar_append_bar (p xs : List Char) (h : '|' ∉ p) :
    splitBar (p ++ '|' :: xs) = p :: splitBar xs := by
  induction p with
  | nil => simp [splitBar]
  | cons c rest ih =>
      have hc : c ≠ '|' := by rintro rfl; exact h (List.mem_cons_self _ _)
      have hrest : '|' ∉ rest := fun hm => h (List.mem_cons_of_mem _ hm)
      have hi := ih hrest
      rcases heq : splitBar (rest ++ '|' :: xs) with _ | ⟨h0, t0⟩
      · exact absurd heq (splitBar_ne_nil _)
      · rw [heq] at hi
        injection hi with hi1 hi2
        rw [List.cons_append, splitBar_cons_ne c _ _ _ hc heq, hi1, hi2]

theorem splitBar_joinBar (ps : List (List Char)) (hne : ps ≠ [])
    (h : ∀ p ∈ ps, '|' ∉ p) : splitBar (joinBar ps) = ps := by
  induction ps with
  | nil => exact absurd rfl hne
  | cons p rest ih =>
      cases rest with
      | nil => exact splitBar_no_bar p (h p (List.mem_cons_self _ _))
      | cons q rest2 =>
          have hj : joinBar (p :: q :: rest2) = p ++ '|' :: joinBar (q :: rest2) := rfl
          rw [hj, splitBar_append_bar _ _ (h p (List.mem_cons_self _ _)),
            ih (by simp) fun x hx => h x (List.mem_cons_of_mem _ hx)]

theorem mem_joinBar (ps : List (List Char)) (p : List Char) (c : Char)
    (hp : p ∈ ps) (hc : c ∈ p) : c ∈ joinBar ps := by
  induction ps with
  | nil => cases hp
  | cons q rest ih =>
      cases rest with
      | nil =>
          rw [List.mem_singleton.mp hp] at hc
          exact hc
      | cons r rest2 =>
          have hj : joinBar (q :: r :: rest2) = q ++ '|' :: joinBar (r :: rest2) := rfl
          rw [hj]
          rcases List.mem_cons.mp hp with rfl | hp2
          · exact List.mem_append_left _ hc
          · exact List.mem_append_right _ (List.mem_cons_of_mem _ (ih hp2))

theorem splitBar_mem_of_mem (xs : List Char) (c : Char) (hc : c ≠ '|') :
    c ∈ xs → ∃ b ∈ splitBar xs, c ∈ b := by
  induction xs with
  | nil => intro h; cases h
  | cons d rest ih =>
      intro h
      by_cases hd : d = '|'
      · subst hd
        have h' : c ∈ rest := by
          rcases List.mem_cons.mp h with h1 | h1
          · exact absurd h1 hc
          · exact h1
        obtain ⟨b, hb, hcb⟩ := ih h'
        refine ⟨b, ?_, hcb⟩
        have hsplit : splitBar ('|' :: rest) = [] :: splitBar rest := by
          simp [splitBar]
        rw [hsplit]
        exact List.mem_cons_of_mem _ hb
      · rcases heq : splitBar rest with _ | ⟨h0, t0⟩
        · exact absurd heq (splitBar_ne_nil rest)
        · have hsplit : splitBar (d :: rest) = (d :: h0) :: t0 := by
            simp [splitBar, if_neg hd, heq]
          rcases List.mem_cons.mp h with h1 | h1
          · subst h1
            exact ⟨c :: h0, by rw [hsplit]; exact List.mem_cons_self _ _,
              List.mem_cons_self _ _⟩
          · obtain ⟨b, hb, hcb⟩ := ih h1
            rw [heq] at hb
            rcases List.mem_cons.mp hb with rfl | hb2
            · exact ⟨d :: b, by rw [hsplit]; exact List.mem_cons_self _ _,
                List.mem_cons_of_mem _ hcb⟩
            · exact ⟨b, by rw [hsplit]; exact List.mem_cons_of_mem _ hb2, hcb⟩

theorem any_map_data (l : List String) (f : List Char → Bool) :
    (l.map String.data).any f = l.any fun s => f s.data := by
  induction l with
  | nil => rfl
  | cons a t ih => simp [List.any, ih]

theorem collect_ok_of_headers (scope : Scope) (hs : List (String × String))
    (h : scope.headers = some hs) :
    ∃ attrs, collect_request_attributes scope = .ok attrs := by
  obtain ⟨v1, h1⟩ : ∃ v, CarrierGetter.get scope "host" = .ok v := by
    simp only [CarrierGetter.get, h]
    split <;> exact ⟨_, rfl⟩
  obtain ⟨v2, h2⟩ : ∃ v, CarrierGetter.get scope "user-agent" = .ok v := by
    simp only [CarrierGetter.get, h]
    split <;> exact ⟨_, rfl⟩
  simp only [collect_request_attributes, h1, h2]
  exact ⟨_, rfl⟩

theorem lookupAttr_scheme_host (x : PyVal) (sh : String)
    (rest : List (String × PyVal)) :
    lookupAttr ((("http.scheme", x) :: ("http.host", PyVal.vStr sh) :: rest).filter
      fun kv => kv.2 ≠ PyVal.vNone) "http.host" = some (.vStr sh) := by
  rcases x <;> simp [lookupAttr, List.filter, List.find?]

/-! Theorems settling the claims. -/

/-- A span-details callback that raises, exercising the exit path of the
middleware between `context.attach` and the `try` block. -/
def raisingCallback : Scope → Except PyErr (Option String × List (String × PyVal)) :=
  fun _ => .error (.userError "callback boom")

/-- C1: at the failing input — an instrumented http scope whose span-details
callback raises — the invocation performs the `context.attach` but exits
with zero `context.detach` calls, because the callback runs after the attach
and before the `try/finally`; the claim (and the spec's lifecycle invariant)
require exactly one detach on this exit path as well. -/
theorem attach_without_detach_on_callback_exception :
    (OpenTelemetryMiddleware.call { span_details_callback := raisingCallback }
        {} { type_ := "http", path := some "/", headers := some [] }
        .returns).events = [.attach 0] ∧
    (OpenTelemetryMiddleware.call { span_details_callback := raisingCallback }
        {} { type_ := "http", path := some "/", headers := some [] }
        .returns).outcome = .error (.userError "callback boom") :=
  ⟨rfl, rfl⟩

/-- C2 counterexample: with the suppression flag set in the ambient context
and a non-excluded url, the middleware does not take the pass-through
branch — it attaches the extracted context, opens the root span, and invokes
the downstream application with the wrapped (not original) receive/send. -/
theorem suppressed_context_still_instruments :
    (OpenTelemetryMiddleware.call {} { suppress_instrumentation := true }
        scenarioA .returns).events =
      [.attach 0, .spanStart "GET asgi", .appCall true,
       .spanEnd "GET asgi", .detach 0] ∧
    (OpenTelemetryMiddleware.call {} { suppress_instrumentation := true }
        scenarioA .returns).spans ≠ [] :=
  ⟨rfl, by decide⟩

/-- C3 counterexample: on a recording span, a status value of `None` cannot
be coerced to an integer, yet `set_status_code` does not degrade to an error
status — `int(None)` raises `TypeError`, which is not caught (only
`ValueError` is), so the call raises instead of never raising. -/
theorem set_status_code_raises_on_none :
    set_status_code { name := "GET asgi.http.send", recording := true }
      PyVal.vNone = .error (.typeError pyIntNoneMsg) := rfl

/-- C4 counterexample: header lookup is case-sensitive, not case-insensitive:
with the header name stored as `"host"`, looking up `"Host"` returns `none`
even though a header with that name (up to case) is present, while the
exact-case lookup returns its value. -/
theorem carrier_get_is_case_sensitive :
    CarrierGetter.get { type_ := "http", headers := some [("host", "example.com")] }
      "Host" = .ok none ∧
    CarrierGetter.get { type_ := "http", headers := some [("host", "example.com")] }
      "host" = .ok (some ["example.com"]) :=
  ⟨rfl, rfl⟩

/-- C5 counterexample: for an https scope on port 443 the port suffix is not
omitted — the code compares the port against the literal `80` whatever the
scheme, so `http.host` is `"example.com:443"` and not the bare host. -/
theorem http_host_keeps_port_443 :
    collect_request_attributes
      { type_ := "http", path := some "/", scheme := some "https",
        server := some ("example.com", 443), headers := some [] } =
      .ok [("http.scheme", .vStr "https"),
           ("http.host", .vStr "example.com:443"),
           ("net.host.port", .vInt 443),
           ("http.target", .vStr "/"),
           ("http.url", .vStr "https://example.com:443/")] := rfl

/-- C8: on the scenario-A scope with no exclusions and the default naming
strategy, the middleware opens exactly one root span, named `"GET asgi"`,
whose attributes contain `http.method = "GET"` and
`http.url = "http://0.0.0.0/foobar"`, and no attribute value is `None`. -/
theorem scenarioA_root_span :
    (OpenTelemetryMiddleware.call {} {} scenarioA .returns).spans.map
        SpanModel.name = ["GET asgi"] ∧
    (OpenTelemetryMiddleware.call {} {} scenarioA .returns).events.count
        (.spanStart "GET asgi") = 1 ∧
    (OpenTelemetryMiddleware.call {} {} scenarioA .returns).spans.map
        SpanModel.attrs =
      [[("http.scheme", .vStr "http"), ("http.host", .vStr "0.0.0.0"),
        ("net.host.port", .vInt 80), ("http.target", .vStr "/foobar"),
        ("http.url", .vStr "http://0.0.0.0/foobar"),
        ("http.method", .vStr "GET")]] ∧
    ∀ span ∈ (OpenTelemetryMiddleware.call {} {} scenarioA .returns).spans,
      ∀ kv ∈ span.attrs, kv.2 ≠ PyVal.vNone := by
  refine ⟨rfl, rfl, rfl, ?_⟩
  decide

/-- C10: a filter constructed from an empty pattern list never creates the
compiled-regex attribute, and `url_disabled` is nonetheless total on every
url: the conjunction short-circuits on the empty stored list and returns
`false` without touching the absent attribute, so no `AttributeError` can
occur. -/
theorem empty_exclude_list_total (url : String) :
    mkExcludeList [] = .ok ⟨[], none⟩ ∧
    ExcludeList.url_disabled ⟨[], none⟩ url = .ok false :=
  ⟨rfl, rfl⟩

/-- C9: `CarrierGetter.get` is not total over arbitrary carriers: whenever
the carrier lacks a `"headers"` entry it raises `TypeError` instead of
returning `none`, and whenever the precondition holds — a `"headers"` entry
holding a list of pairs — the call returns a value. -/
theorem carrier_get_requires_headers (carrier : Scope) (key : String) :
    (carrier.headers = none →
      CarrierGetter.get carrier key = .error (.typeError noneIterMsg)) ∧
    (∀ hs, carrier.headers = some hs →
      ∃ v, CarrierGetter.get carrier key = .ok v) := by
  constructor
  · intro h
    simp [CarrierGetter.get, h]
  · intro hs h
    simp only [CarrierGetter.get, h]
    split <;> exact ⟨_, rfl⟩

/-- C9 witness: at a concrete carrier without headers the lookup raises. -/
theorem carrier_get_requires_headers_witness :
    CarrierGetter.get { type_ := "http" } "host" =
      .error (.typeError noneIterMsg) :=
  (carrier_get_requires_headers { type_ := "http" } "host").1 rfl

/-- C4 as amended: the lookup matches header names exactly (hence
case-sensitively): it returns the list of decoded values of the headers whose
name equals the key, and `none` — never an empty list — exactly when no
header with exactly that name is present. -/
theorem carrier_get_exact_match (carrier : Scope) (key : String)
    (hs : List (String × String)) (h : carrier.headers = some hs) :
    CarrierGetter.get carrier key =
      .ok (if (hs.filterMap fun kv => if kv.1 = key then some kv.2 else none).isEmpty
        then none
        else some (hs.filterMap fun kv => if kv.1 = key then some kv.2 else none)) ∧
    (CarrierGetter.get carrier key = .ok none ↔ ∀ kv ∈ hs, kv.1 ≠ key) := by
  have hget : CarrierGetter.get carrier key =
      if (hs.filterMap fun kv => if kv.1 = key then some kv.2 else none).isEmpty
      then .ok none
      else .ok (some (hs.filterMap fun kv => if kv.1 = key then some kv.2 else none)) := by
    simp only [CarrierGetter.get, h]
  constructor
  · rw [hget]
    by_cases hd : (hs.filterMap fun kv => if kv.1 = key then some kv.2 else none).isEmpty
    · simp [hd]
    · simp [hd]
  · have hiff : (hs.filterMap fun kv => if kv.1 = key then some kv.2 else none).isEmpty
        = true ↔ ∀ kv ∈ hs, kv.1 ≠ key := by
      rw [List.isEmpty_iff, List.filterMap_eq_nil_iff]
      constructor
      · intro hd kv hkv
        have := hd kv hkv
        simpa using this
      · intro hd kv hkv
        simp [hd kv hkv]
    rw [hget]
    by_cases hd : (hs.filterMap fun kv => if kv.1 = key then some kv.2 else none).isEmpty
      = true
    · rw [if_pos hd]
      exact iff_of_true rfl (hiff.mp hd)
    · rw [if_neg hd]
      apply iff_of_false
      · simp
      · intro hall
        exact hd (hiff.mpr hall)

/-- C4 witness: exact-case lookup returns the decoded values. -/
theorem carrier_get_exact_match_witness :
    CarrierGetter.get { type_ := "http", headers := some [("host", "v")] }
      "host" = .ok (some ["v"]) := by
  have h := (carrier_get_exact_match { type_ := "http", headers := some [("host", "v")] }
    "host" [("host", "v")] rfl).1
  rw [h]
  exact rfl

/-- C3 as amended: on a non-recording span `set_status_code` is a complete
no-op; on a recording span, a value whose coercion fails with `ValueError`
(a non-numeric string) yields an error status whose message embeds the
`repr` of the offending value while the attributes stay untouched and
nothing is raised; a coercible value sets `http.status_code` and the mapped
span status; but a value whose coercion fails with `TypeError` (`None`)
propagates the exception. -/
theorem set_status_code_spec (span : SpanModel) (code : PyVal) :
    (span.recording = false → set_status_code span code = .ok span) ∧
    (span.recording = true → ∀ s, code = .vStr s → parseIntString s = none →
      set_status_code span code = .ok { span with
        status := ⟨.error, some ("Non-integer HTTP status: " ++ pyRepr code)⟩ }) ∧
    (span.recording = true → ∀ n, pyInt code = .ok n →
      set_status_code span code = .ok { span with
        attrs := setAttr span.attrs "http.status_code" (.vInt n),
        status := ⟨http_status_to_status_code n, none⟩ }) ∧
    (span.recording = true → code = .vNone →
      set_status_code span code = .error (.typeError pyIntNoneMsg)) := by
  refine ⟨?_, ?_, ?_, ?_⟩
  · intro h
    simp [set_status_code, h]
  · intro hrec s hcode hparse
    subst hcode
    simp [set_status_code, hrec, pyInt, hparse]
  · intro hrec n hn
    simp [set_status_code, hrec, hn]
  · intro hrec hcode
    subst hcode
    simp [set_status_code, hrec, pyInt]

/-- C3 witness: a recording span and the non-numeric string code of the
spec's example get the error status with the embedded value. -/
theorem set_status_code_spec_witness :
    set_status_code { name := "GET asgi.http.send", recording := true }
      (PyVal.vStr "abc") =
      .ok { name := "GET asgi.http.send", recording := true,
            status := ⟨.error, some ("Non-integer HTTP status: " ++ pyRepr (.vStr "abc"))⟩ } :=
  (set_status_code_spec { name := "GET asgi.http.send", recording := true }
    (PyVal.vStr "abc")).2.1 rfl "abc" rfl rfl

/-- C6: when the scope type is neither http nor websocket, or the computed
url is matched by the configured exclusion filter, the middleware passes
through untouched: no span, no attach, and the downstream application runs
with the original (unwrapped) receive and send. -/
theorem middleware_passthrough (mw : OpenTelemetryMiddleware) (ctx : Ctx)
    (scope : Scope) (app : AppResult)
    (h : (scope.type_ ≠ "http" ∧ scope.type_ ≠ "websocket") ∨
      ∃ e, mw.excluded_urls = some e ∧
        e.url_disabled (get_host_port_url_tuple scope).2.2 = .ok true) :
    OpenTelemetryMiddleware.call mw ctx scope app =
      { events := [.appCall false], spans := [], attached := none,
        outcome := appOutcome app } := by
  by_cases ht : scope.type_ ≠ "http" ∧ scope.type_ ≠ "websocket"
  · simp [OpenTelemetryMiddleware.call, ht.1, ht.2]
  · rcases h with h | ⟨e, hexc, hurl⟩
    · exact absurd h ht
    · simp [OpenTelemetryMiddleware.call, ht, hexc, hurl]

/-- C6 witness: a lifespan scope passes through untouched. -/
theorem middleware_passthrough_witness :
    OpenTelemetryMiddleware.call {} {} { type_ := "lifespan" } .returns =
      { events := [.appCall false], spans := [], attached := none,
        outcome := .ok () } :=
  middleware_passthrough {} {} { type_ := "lifespan" } .returns
    (Or.inl (by decide))

/-- C2 as amended: the middleware never reads the suppression flag — its
event trace is identical whatever the flag's value — and with the flag set
on a non-excluded http scope it still attaches the context, opens the root
span and invokes the downstream application with the wrapped primitives,
instead of behaving as in the pass-through branch. -/
theorem middleware_ignores_suppression_flag (mw : OpenTelemetryMiddleware)
    (ctx : Ctx) (scope : Scope) (app : AppResult) (name : String)
    (hs : List (String × String))
    (_hsup : ctx.suppress_instrumentation = true)
    (htype : scope.type_ = "http")
    (hexc : mw.excluded_urls = none)
    (hcb : mw.span_details_callback scope = .ok (some name, []))
    (hhdr : scope.headers = some hs) :
    (OpenTelemetryMiddleware.call mw ctx scope app).events =
      (OpenTelemetryMiddleware.call mw
        { ctx with suppress_instrumentation := false } scope app).events ∧
    Event.attach 0 ∈ (OpenTelemetryMiddleware.call mw ctx scope app).events ∧
    Event.spanStart (name ++ " asgi") ∈
      (OpenTelemetryMiddleware.call mw ctx scope app).events ∧
    Event.appCall true ∈ (OpenTelemetryMiddleware.call mw ctx scope app).events := by
  obtain ⟨attrs, hcol⟩ := collect_ok_of_headers scope hs hhdr
  by_cases hrec : mw.recording
  · simp [OpenTelemetryMiddleware.call, htype, hexc, hcb, hrec, hcol]
  · simp [OpenTelemetryMiddleware.call, htype, hexc, hcb, hrec]

/-- C2 witness: the scenario-A scope with the suppression flag set is still
instrumented. -/
theorem middleware_ignores_suppression_flag_witness :
    Event.appCall true ∈ (OpenTelemetryMiddleware.call {}
      { suppress_instrumentation := true } scenarioA .returns).events :=
  (middleware_ignores_suppression_flag {} { suppress_instrumentation := true }
    scenarioA .returns "GET" [] rfl rfl rfl rfl rfl).2.2.2

/-- C5 as amended: the host component of the attribute tuple is the bare
host exactly when the port is the literal `80`, and `host:port` for every
other port whatever the scheme; `collect_request_attributes` stores exactly
that string under `http.host`. -/
theorem http_host_port80_rule (scope : Scope) (host : String) (port : Int)
    (h : scope.server = some (host, port)) :
    (get_host_port_url_tuple scope).1 =
      host ++ (if port ≠ 80 then ":" ++ toString port else "") ∧
    ∀ attrs, collect_request_attributes scope = .ok attrs →
      lookupAttr attrs "http.host" =
        some (.vStr (host ++ (if port ≠ 80 then ":" ++ toString port else ""))) := by
  have htup : (get_host_port_url_tuple scope).1 =
      host ++ (if port ≠ 80 then ":" ++ toString port else "") := by
    simp [get_host_port_url_tuple, h]
  refine ⟨htup, ?_⟩
  intro attrs hcol
  rcases hh : scope.headers with _ | hs
  · simp [collect_request_attributes, CarrierGetter.get, hh] at hcol
  · obtain ⟨v1, h1⟩ : ∃ v, CarrierGetter.get scope "host" = .ok v := by
      simp only [CarrierGetter.get, hh]
      split <;> exact ⟨_, rfl⟩
    obtain ⟨v2, h2⟩ : ∃ v, CarrierGetter.get scope "user-agent" = .ok v := by
      simp only [CarrierGetter.get, hh]
      split <;> exact ⟨_, rfl⟩
    simp only [collect_request_attributes, h1, h2, Except.ok.injEq] at hcol
    rw [← hcol, ← htup]
    exact lookupAttr_scheme_host _ _ _

/-- C5 witness: at the https-on-443 scope the stored `http.host` is computed
by the port-80 rule. -/
theorem http_host_port80_rule_witness :
    lookupAttr [("http.scheme", PyVal.vStr "https"),
      ("http.host", PyVal.vStr "example.com:443"),
      ("net.host.port", PyVal.vInt 443), ("http.target", PyVal.vStr "/"),
      ("http.url", PyVal.vStr "https://example.com:443/")] "http.host" =
      some (.vStr "example.com:443") := by
  have h := (http_host_port80_rule
    { type_ := "http", path := some "/", scheme := some "https",
      server := some ("example.com", 443), headers := some [] }
    "example.com" 443 rfl).2 _ rfl
  exact h.trans (by decide)

/-- C7: over the modelled regex fragment (patterns without the alternation
separator), `url_disabled` is false for the empty filter; a pattern outside
the valid fragment makes construction fail fast with a reported error; and
on every successfully constructed filter `url_disabled` is true iff the
pattern list is non-empty and some configured pattern is found by unanchored
search anywhere in the url. -/
theorem exclude_list_spec (patterns : List String) (url : String)
    (hbar : ∀ p ∈ patterns, '|' ∉ p.data) :
    (patterns = [] → mkExcludeList patterns = .ok ⟨[], none⟩ ∧
      ExcludeList.url_disabled ⟨[], none⟩ url = .ok false) ∧
    ((∃ p ∈ patterns, patternValid p.data = false) →
      ∃ err, mkExcludeList patterns = .error err) ∧
    (∀ e, mkExcludeList patterns = .ok e →
      e.url_disabled url =
        .ok (decide (patterns ≠ []) &&
          patterns.any fun p => isSubstring p.data url.data)) := by
  refine ⟨?_, ?_, ?_⟩
  · rintro rfl
    exact ⟨rfl, rfl⟩
  · rintro ⟨p, hp, hval⟩
    have hne : patterns ≠ [] := by rintro rfl; cases hp
    obtain ⟨c, hcp, hmeta⟩ : ∃ c ∈ p.data, isRegexMeta c = true := by
      by_contra hno
      push_neg at hno
      have : patternValid p.data = true := by
        rw [patternValid, List.all_eq_true]
        intro c hc
        simp [hno c hc]
      rw [this] at hval
      cases hval
    have hcbar : c ≠ '|' := by
      rintro rfl
      simp [isRegexMeta] at hmeta
    have hcjoin : c ∈ joinBar (patterns.map String.data) :=
      mem_joinBar _ p.data c (List.mem_map_of_mem _ hp) hcp
    obtain ⟨b, hb, hcb⟩ := splitBar_mem_of_mem _ c hcbar hcjoin
    have hbinv : patternValid b = false := by
      rcases hv : patternValid b
      · rfl
      · exact absurd (by simpa using List.all_eq_true.mp hv c hcb) (by simp [hmeta])
    have hall : (splitBar (joinBar (patterns.map String.data))).all patternValid
        = false := by
      rcases hv : (splitBar (joinBar (patterns.map String.data))).all patternValid
      · rfl
      · rw [List.all_eq_true.mp hv b hb] at hbinv
        cases hbinv
    have hcomp : re_compile ⟨joinBar (patterns.map String.data)⟩ =
        .error (.reError ("invalid pattern: " ++
          String.mk (joinBar (patterns.map String.data)))) := by
      rw [re_compile]
      exact if_neg (by simp [hall])
    refine ⟨.reError ("invalid pattern: " ++
      String.mk (joinBar (patterns.map String.data))), ?_⟩
    rw [mkExcludeList, if_neg (by simp [hne]), hcomp]
  · intro e he
    by_cases hnil : patterns = []
    · subst hnil
      rw [mkExcludeList] at he
      simp only [List.isEmpty_nil, if_true] at he
      injection he with he2
      rw [← he2]
      rfl
    · have hsplit : splitBar (joinBar (patterns.map String.data)) =
          patterns.map String.data :=
        splitBar_joinBar _ (by simpa using hnil) fun q hq => by
          obtain ⟨r, hr, rfl⟩ := List.mem_map.mp hq
          exact hbar r hr
      rw [mkExcludeList, if_neg (by simp [hnil]), re_compile] at he
      rw [hsplit] at he
      rcases hv : (patterns.map String.data).all patternValid
      · rw [if_neg (by simp [hv])] at he
        cases he
      · rw [if_pos (by simp [hv])] at he
        injection he with he2
        rw [← he2]
        simp only [ExcludeList.url_disabled, re_search]
        rw [if_neg (by simp [hnil])]
        have hd : (decide (patterns ≠ []) : Bool) = true := by simp [hnil]
        rw [hd, Bool.true_and, any_map_data]

/-- C7 witness: the spec's scenario-B exclusion list matches the url
`/healthzz`. -/
theorem exclude_list_spec_witness :
    ExcludeList.url_disabled
      ⟨["/exclude/123", "healthzz"],
        some ⟨[("/exclude/123" : String).data, ("healthzz" : String).data]⟩⟩
      "/healthzz" = .ok true := by
  have h := (exclude_list_spec ["/exclude/123", "healthzz"] "/healthzz"
    (by decide)).2.2
    ⟨["/exclude/123", "healthzz"],
      some ⟨[("/exclude/123" : String).data, ("healthzz" : String).data]⟩⟩
    (by rfl)
  exact h.trans (by rfl)

end Asgi






